import Mathlib

/-!
Verification development for the feroxbuster Target URL Resolution and
Scan-Configuration engine (src/url.rs and src/config.rs).

The Rust code manipulates URLs through the external reqwest/url crate (the
WHATWG URL standard).  That library is not part of this repository, so we give
an executable model of the slice of its behaviour that src/url.rs exercises:
parsing an absolute URL into scheme / host / port / path-segments / query, and
relative-reference joining against a base.  Simplifications (documented at the
definitions): no percent-encoding or host canonicalisation, no default-port
elision, no fragment handling, no dot-segment normalisation, and special
schemes without "//" are treated as cannot-be-a-base URLs.  Every claim is
stated against this model on both sides, so these simplifications are applied
uniformly.

All string processing is done on character lists so that the proofs can reason
about appends structurally; the functions remain fully executable.
-/

namespace Ferox

/-- Model of a parsed URL (the slice of reqwest::Url observable by src/url.rs).
For URLs with an authority, path holds the path segments, i.e. the pieces of
the path after the leading slash, so http://h/ has path [""], http://h/a/b has
path ["a", "b"] and http://h/a/ has path ["a", ""].  A cannot-be-a-base URL
(for example mailto:x) has host = none and its whole scheme-relative part
stored as a single path element. -/
structure Url where
  scheme : String
  host : Option String
  port : Option Nat
  path : List String
  query : Option String
deriving Repr, DecidableEq

instance instExceptDecEq {ε α : Type} [DecidableEq ε] [DecidableEq α] :
    DecidableEq (Except ε α)
  | .ok a, .ok b =>
    if h : a = b then isTrue (by rw [h]) else isFalse (by simp [h])
  | .ok _, .error _ => isFalse (by simp)
  | .error _, .ok _ => isFalse (by simp)
  | .error e, .error f =>
    if h : e = f then isTrue (by rw [h]) else isFalse (by simp [h])

/-- Characters allowed in a scheme after the first (RFC 3986 / WHATWG). -/
def isSchemeChar (c : Char) : Bool :=
  c.isAlphanum || c = '+' || c = '-' || c = '.'

/-- Scan for the colon that terminates a scheme, accumulating scheme
characters (in reverse) in acc.  Fails if a non-scheme character or the end of
the string is reached first. -/
def schemeGo (acc : List Char) : List Char → Option (String × List Char)
  | [] => none
  | c :: cs =>
    if c = ':' then some (String.mk acc.reverse, cs)
    else if isSchemeChar c then schemeGo (c :: acc) cs
    else none

/-- Split a string into a scheme and the remainder after the colon; none when
the string does not begin with scheme: (the WHATWG "relative URL without a
base" condition for base-less parsing). -/
def schemeSplit : List Char → Option (String × List Char)
  | [] => none
  | c :: cs => if c.isAlpha then schemeGo [c] cs else none

/-- Longest prefix on which p is false, paired with the remainder (which, when
non-empty, starts with the first character satisfying p). -/
def takeUntil (p : Char → Bool) : List Char → List Char × List Char
  | [] => ([], [])
  | c :: cs =>
    if p c then ([], c :: cs)
    else
      let r := takeUntil p cs
      (c :: r.1, r.2)

/-- Split on every occurrence of sep; always returns at least one piece.
Mirrors Rust str::split with a char pattern. -/
def splitCharAux (sep : Char) : List Char → List (List Char)
  | [] => [[]]
  | c :: cs =>
    if c = sep then [] :: splitCharAux sep cs
    else
      match splitCharAux sep cs with
      | [] => [[c]]
      | h :: t => (c :: h) :: t

/-- String-valued version of splitCharAux. -/
def splitChar (sep : Char) (l : List Char) : List String :=
  (splitCharAux sep l).map String.mk

/-- Numeric value of a digit string. -/
def digitsVal (ds : List Char) : Nat :=
  ds.foldl (fun n c => n * 10 + (c.toNat - 48)) 0

/-- The WHATWG special schemes (which require a non-empty host). -/
def isSpecialScheme (s : String) : Bool :=
  s == "http" || s == "https" || s == "ws" || s == "wss" || s == "ftp" || s == "file"

/-- Parse an authority port part.  The input is either empty (no colon in the
authority) or starts with the colon.  An empty port after the colon is
treated as absent; a non-digit or out-of-range port is an error. -/
def parsePort : List Char → Except String (Option Nat)
  | [] => .ok none
  | _ :: ds =>
    if ds.isEmpty then .ok none
    else if ds.all Char.isDigit then
      if digitsVal ds ≤ 65535 then .ok (some (digitsVal ds))
      else .error "invalid port number"
    else .error "invalid port number"

/-- Split the part after the authority into path segments and query.  The
input is empty or starts with a slash or a question mark. -/
def pathQuery (after : List Char) : List String × Option String :=
  let pq := takeUntil (fun c => c = '?') after
  let segs :=
    match pq.1 with
    | [] => [""]
    | _ :: rest => splitChar '/' rest
  let q :=
    match pq.2 with
    | _ :: qs => some (String.mk qs)
    | [] => none
  (segs, q)

/-- Parse what follows scheme:// into an authority plus path and query.
Model simplifications: no userinfo handling and no host-character
validation or canonicalisation. -/
def parseAuthority (sch : String) (r : List Char) : Except String Url :=
  let astop := takeUntil (fun c => c = '/' || c = '?') r
  let hp := takeUntil (fun c => c = ':') astop.1
  if hp.1.isEmpty && isSpecialScheme sch then .error "empty host"
  else
    match parsePort hp.2 with
    | .error e => .error e
    | .ok port =>
      let pq := pathQuery astop.2
      .ok { scheme := sch, host := some (String.mk hp.1), port := port,
            path := pq.1, query := pq.2 }

/-- Parse a string as an absolute URL (the base-less reqwest::Url::parse).
A missing scheme is the "relative URL without a base" error.  A scheme not
followed by two slashes yields a cannot-be-a-base URL (host = none). -/
def parseUrlChars (l : List Char) : Except String Url :=
  match schemeSplit l with
  | none => .error "relative URL without a base"
  | some (sch, rest) =>
    match rest with
    | '/' :: '/' :: r => parseAuthority sch r
    | r =>
      let pq := takeUntil (fun c => c = '?') r
      .ok { scheme := sch, host := none, port := none,
            path := [String.mk pq.1],
            query := match pq.2 with | _ :: qs => some (String.mk qs) | [] => none }

/-- String wrapper for parseUrlChars. -/
def parseUrl (s : String) : Except String Url :=
  parseUrlChars s.toList

/-- Model of reqwest::Url::join: resolve a (possibly relative) reference
against a base URL.  An empty input returns the base; an input with a scheme
is parsed as absolute; two leading slashes make a protocol-relative reference
(base scheme, new authority); otherwise resolution against a cannot-be-a-base
URL fails, an absolute path replaces the base path, a query-only input
replaces the query, and a relative path replaces the last segment of the base
path.  Dot segments are not normalised in the model. -/
def joinUrl (base : Url) (input : String) : Except String Url :=
  if input = "" then .ok base
  else
    match schemeSplit input.toList with
    | some _ => parseUrlChars input.toList
    | none =>
      match input.toList with
      | '/' :: '/' :: r => parseAuthority base.scheme r
      | l =>
        match base.host with
        | none => .error "cannot be a base"
        | some _ =>
          match l with
          | '/' :: _ =>
            let pq := pathQuery l
            .ok { base with path := pq.1, query := pq.2 }
          | '?' :: qs => .ok { base with query := some (String.mk qs) }
          | _ =>
            let pq := takeUntil (fun c => c = '?') l
            let segs := splitChar '/' pq.1
            let q := match pq.2 with | _ :: qs => some (String.mk qs) | [] => none
            .ok { base with path := base.path.dropLast ++ segs, query := q }

/-! Embedding of src/url.rs (FeroxUrl).  The Handles object referenced there
only supplies configuration values and the statistics event channel; we pass
those explicitly. -/

/-- True when the string ends with a slash (Rust str::ends_with with a char
pattern, as used throughout src/url.rs). -/
def endsWithSlash (s : String) : Bool :=
  s.toList.getLast? = some '/'

/-- True when the string starts with two forward slashes (Rust
starts_with("//") at src/url.rs line 106). -/
def startsWithTwoSlashes (s : String) : Bool :=
  match s.toList with
  | '/' :: '/' :: _ => true
  | _ => false

/-- Rust trim_start_matches applied with a slash pattern (src/url.rs line
114): removes every leading slash. -/
def trimStartSlashes (s : String) : String :=
  String.mk (s.toList.dropWhile (fun c => c = '/'))

/-- The slice of the program Configuration read by src/url.rs: extensions,
add_slash and queries.  The extensions field is declared in src/config.rs; the
add_slash and queries fields are read by src/url.rs through handles.config but
their declarations are not part of the two source files, so they are modelled
from the spec (section 3: ordered (key, value) query pairs appended to every
generated URL, and an add-slash boolean defaulting to false). -/
structure UrlConfig where
  extensions : List String
  add_slash : Bool
  queries : List (String × String)
deriving Repr, DecidableEq

/-- The default UrlConfig (no extensions, no add-slash, no queries). -/
def UrlConfig.default : UrlConfig :=
  { extensions := [], add_slash := false, queries := [] }

/-- Serialise query pairs the way form-urlencoding does for plain
alphanumeric keys and values (percent-encoding is not modelled). -/
def encodeQueryPairs (qs : List (String × String)) : String :=
  String.intercalate "&" (qs.map (fun p => p.1 ++ "=" ++ p.2))

/-- Model of reqwest::Url::parse_with_params applied to the serialisation of
an already-parsed URL (src/url.rs line 127): re-parsing the serialisation of a
parsed URL gives the URL back, so the net effect is appending the configured
query pairs to its query.  Cannot fail. -/
def addQueryParams (u : Url) (qs : List (String × String)) : Url :=
  { u with query :=
      match u.query with
      | none => some (encodeQueryPairs qs)
      | some q => some (q ++ "&" ++ encodeQueryPairs qs) }

/-- The effective word computed inside FeroxUrl::format (src/url.rs lines
100-117): extension appended when supplied; else a trailing slash appended
when add_slash is set and the word has none; else all leading slashes stripped
when the word starts with two; else the word unchanged. -/
def effectiveWord (cfg : UrlConfig) (word : String) (extension : Option String) : String :=
  match extension with
  | some ext => word ++ "." ++ ext
  | none =>
    if cfg.add_slash && !endsWithSlash word then word ++ "/"
    else if startsWithTwoSlashes word then trimStartSlashes word
    else word

/-- Embedding of FeroxUrl::format (src/url.rs lines 66-132).  target is the
FeroxUrl target string.  A word that itself parses as a URL is rejected; the
base is the raw target for an empty word and the slash-terminated target
otherwise; the effective word is joined against the parsed base; configured
query pairs are appended to the join result. -/
def format (cfg : UrlConfig) (target word : String) (extension : Option String) :
    Except String Url :=
  if (parseUrl word).isOk then
    .error ("word (" ++ word ++ ") from wordlist is a URL, skipping...")
  else
    let url :=
      if word = "" then target
      else if !endsWithSlash target then target ++ "/"
      else target
    let w := effectiveWord cfg word extension
    match parseUrl url with
    | .error e => .error e
    | .ok base =>
      match joinUrl base w with
      | .error e => .error e
      | .ok joined =>
        if cfg.queries.isEmpty then .ok joined
        else .ok (addQueryParams joined cfg.queries)

/-- The one statistics message kind sent by src/url.rs: Command::AddError
applied to StatError::UrlFormat.  The enclosing enums live outside the two
source files; only this variant is observable here. -/
inductive StatsCommand where
  | addErrorUrlFormat
deriving Repr, DecidableEq

/-- Model of the statistics event channel (handles.stats).  ok records
whether the receiving side is still connected: an mpsc send fails exactly
when the receiver is gone, and then keeps failing.  sent records the messages
delivered so far, in order. -/
structure StatsChannel where
  ok : Bool
  sent : List StatsCommand
deriving Repr, DecidableEq

/-- Sending on the channel: delivery appends the message; a send on a closed
channel is an error (propagated by the question-mark operator in
formatted_urls). -/
def StatsChannel.send (ch : StatsChannel) (c : StatsCommand) :
    Except String StatsChannel :=
  if ch.ok then .ok { ch with sent := ch.sent ++ [c] } else .error "stats channel closed"

/-- One iteration of FeroxUrl::formatted_urls (src/url.rs lines 45-57): on a
successful format the URL is collected; on a failed format a UrlFormat soft
error is sent to the stats channel, and a failure of that send aborts the
whole call. -/
def formatStep (cfg : UrlConfig) (target word : String)
    (acc : List Url × StatsChannel) (extension : Option String) :
    Except String (List Url × StatsChannel) :=
  match format cfg target word extension with
  | .ok u => .ok (acc.1 ++ [u], acc.2)
  | .error _ =>
    match acc.2.send .addErrorUrlFormat with
    | .ok ch => .ok (acc.1, ch)
    | .error e => .error e

/-- The sequence of extension arguments tried by formatted_urls: the
no-extension form first, then each configured extension in order. -/
def extensionForms (cfg : UrlConfig) : List (Option String) :=
  none :: cfg.extensions.map some

/-- Embedding of FeroxUrl::formatted_urls (src/url.rs lines 40-61): fold
formatStep over the no-extension form and the configured extensions, starting
from no URLs and the given channel state. -/
def formattedUrls (cfg : UrlConfig) (target : String) (ch : StatsChannel)
    (word : String) : Except String (List Url × StatsChannel) :=
  (extensionForms cfg).foldlM (formatStep cfg target word) ([], ch)

/-- Embedding of FeroxUrl::normalize (src/url.rs lines 178-189): the target
with a guaranteed trailing slash. -/
def normalize (target : String) : String :=
  if endsWithSlash target then target else target ++ "/"

/-- Model of reqwest::Url::path_segments: none exactly for cannot-be-a-base
URLs, otherwise the path segments. -/
def pathSegments (u : Url) : Option (List String) :=
  match u.host with
  | none => none
  | some _ => some u.path

/-- Embedding of FeroxUrl::depth (src/url.rs lines 202-221): normalize the
target, parse it, and count its path segments; errors on unparsable targets
and on targets without path segments. -/
def depth (target : String) : Except String Nat :=
  match parseUrl (normalize target) with
  | .error e => .error e
  | .ok parsed =>
    match pathSegments parsed with
    | none => .error "No path segments found"
    | some parts => .ok parts.length

/-! Embedding of src/config.rs (Configuration and Configuration::new).  The
clap argument matcher, the filesystem read and the toml deserializer are
external; the merge logic is embedded as a pure function over the parsed
values they produce. -/

/-- Model of the HTTP client handle: reqwest client construction is external,
so a client is identified by the arguments client::initialize was called
with (timeout, useragent, redirect policy, insecure flag, default headers,
optional proxy). -/
structure Client where
  timeout : Nat
  useragent : String
  redirects : Bool
  insecure : Bool
  headers : List (String × String)
  proxy : Option String
deriving Repr, DecidableEq

/-- Model of client::initialize (the HTTP Client Factory, external to the two
source files; spec section 4.2: a pure function from those six inputs to a
client handle). -/
def clientInitialize (timeout : Nat) (useragent : String) (redirects insecure : Bool)
    (headers : List (String × String)) (proxy : Option String) : Client :=
  { timeout := timeout, useragent := useragent, redirects := redirects,
    insecure := insecure, headers := headers, proxy := proxy }

/-- The default timeout (src/config.rs fn timeout). -/
def defaultTimeout : Nat := 7

/-- The default thread count (src/config.rs fn threads). -/
def defaultThreads : Nat := 50

/-- The program version.  The VERSION constant lives outside the two source
files; its value is immaterial to every claim. -/
def VERSION : String := "1.12.2"

/-- The default user agent (src/config.rs fn useragent):
"feroxbuster/VERSION". -/
def defaultUseragent : String := "feroxbuster/" ++ VERSION

/-- The default wordlist path.  DEFAULT_WORDLIST lives outside the two source
files; its value is immaterial to every claim. -/
def defaultWordlist : String :=
  "/usr/share/seclists/Discovery/Web-Content/raft-medium-directories.txt"

/-- The default status-code set (src/config.rs fn statuscodes maps
DEFAULT_RESPONSE_CODES to u16; the constant lives outside the two source
files and its value is immaterial to every claim). -/
def defaultStatusCodes : List Nat :=
  [200, 204, 301, 302, 307, 308, 401, 403, 405]

/-- The final program Configuration (src/config.rs struct Configuration).
The headers HashMap is modelled as an association list with unique keys kept
in insertion order. -/
structure Configuration where
  wordlist : String
  proxy : String
  target_url : String
  statuscodes : List Nat
  client : Client
  threads : Nat
  timeout : Nat
  verbosity : Nat
  quiet : Bool
  output : String
  useragent : String
  follow_redirects : Bool
  insecure : Bool
  extensions : List String
  headers : List (String × String)
  norecursion : Bool
deriving Repr, DecidableEq

/-- Configuration::default (src/config.rs lines 83-108): every field at its
built-in default, with a client built from the default client-affecting
values. -/
def defaultConfiguration : Configuration :=
  { wordlist := defaultWordlist, proxy := "", target_url := "",
    statuscodes := defaultStatusCodes,
    client := clientInitialize defaultTimeout defaultUseragent false false [] none,
    threads := defaultThreads, timeout := defaultTimeout, verbosity := 0,
    quiet := false, output := "", useragent := defaultUseragent,
    follow_redirects := false, insecure := false, extensions := [],
    headers := [], norecursion := false }

/-- The values deserialized from a feroxbuster.toml file (the serde-visible
fields of Configuration; the client is skipped).  Keys absent from the file
already hold their serde defaults, which equal the built-in defaults. -/
structure FileSettings where
  wordlist : String
  proxy : String
  target_url : String
  statuscodes : List Nat
  threads : Nat
  timeout : Nat
  verbosity : Nat
  quiet : Bool
  output : String
  useragent : String
  follow_redirects : Bool
  insecure : Bool
  extensions : List String
  headers : List (String × String)
  norecursion : Bool
deriving Repr, DecidableEq

/-- File settings for an empty (or key-less) config file: the serde defaults
of src/config.rs lines 27-59. -/
def defaultFileSettings : FileSettings :=
  { wordlist := defaultWordlist, proxy := "", target_url := "",
    statuscodes := defaultStatusCodes, threads := defaultThreads,
    timeout := defaultTimeout, verbosity := 0, quiet := false, output := "",
    useragent := defaultUseragent, follow_redirects := false,
    insecure := false, extensions := [], headers := [], norecursion := false }

/-- The command-line matches consumed by Configuration::new.  Optional values
are none when the flag was not supplied on the command line; threads, timeout
and statuscodes hold already-validated values (invalid ones abort the process
inside value_t / StatusCode::from_bytes before the merge continues).  quiet,
follow_redirects, norecursion and insecure model clap is_present; verbosity
models occurrences_of; url is the required target. -/
structure Args where
  threads : Option Nat
  wordlist : Option String
  output : Option String
  statuscodes : Option (List Nat)
  extensions : Option (List String)
  quiet : Bool
  verbosity : Nat
  url : String
  proxy : Option String
  useragent : Option String
  timeout : Option Nat
  follow_redirects : Bool
  norecursion : Bool
  insecure : Bool
  headers : Option (List String)
deriving Repr, DecidableEq

/-- A command line with only the required target flag. -/
def Args.onlyUrl (url : String) : Args :=
  { threads := none, wordlist := none, output := none, statuscodes := none,
    extensions := none, quiet := false, verbosity := 0, url := url,
    proxy := none, useragent := none, timeout := none,
    follow_redirects := false, norecursion := false, insecure := false,
    headers := none }

/-- The config-file layer of Configuration::new (src/config.rs lines
149-165): when a file is present, copy the fourteen listed fields over the
defaults (target_url and client are not copied). -/
def applyFile (config : Configuration) : Option FileSettings → Configuration
  | none => config
  | some s =>
    { config with
      threads := s.threads, wordlist := s.wordlist,
      statuscodes := s.statuscodes, proxy := s.proxy, timeout := s.timeout,
      verbosity := s.verbosity, quiet := s.quiet, output := s.output,
      useragent := s.useragent, follow_redirects := s.follow_redirects,
      insecure := s.insecure, extensions := s.extensions,
      headers := s.headers, norecursion := s.norecursion }

/-- CLI override for threads (src/config.rs lines 171-174): only when the
flag is present. -/
def setThreads (c : Configuration) (a : Args) : Configuration :=
  match a.threads with
  | some n => { c with threads := n }
  | none => c

/-- CLI override for wordlist (src/config.rs lines 176-178). -/
def setWordlist (c : Configuration) (a : Args) : Configuration :=
  match a.wordlist with
  | some w => { c with wordlist := w }
  | none => c

/-- CLI override for output (src/config.rs lines 180-182). -/
def setOutput (c : Configuration) (a : Args) : Configuration :=
  match a.output with
  | some o => { c with output := o }
  | none => c

/-- CLI override for statuscodes (src/config.rs lines 184-197). -/
def setStatusCodes (c : Configuration) (a : Args) : Configuration :=
  match a.statuscodes with
  | some codes => { c with statuscodes := codes }
  | none => c

/-- CLI override for extensions (src/config.rs lines 199-205). -/
def setExtensions (c : Configuration) (a : Args) : Configuration :=
  match a.extensions with
  | some exts => { c with extensions := exts }
  | none => c

/-- CLI override for quiet (src/config.rs lines 207-213): guarded so that a
file-set true is not reset by flag absence. -/
def setQuiet (c : Configuration) (a : Args) : Configuration :=
  if a.quiet then { c with quiet := a.quiet } else c

/-- CLI override for verbosity (src/config.rs lines 215-219): guarded on a
positive occurrence count; the cast to u8 truncates modulo 256. -/
def setVerbosity (c : Configuration) (a : Args) : Configuration :=
  if 0 < a.verbosity then { c with verbosity := a.verbosity % 256 } else c

/-- CLI override for the required target url (src/config.rs line 222):
always overwrites. -/
def setTargetUrl (c : Configuration) (a : Args) : Configuration :=
  { c with target_url := a.url }

/-- CLI override for proxy (src/config.rs lines 227-229). -/
def setProxy (c : Configuration) (a : Args) : Configuration :=
  match a.proxy with
  | some p => { c with proxy := p }
  | none => c

/-- CLI override for useragent (src/config.rs lines 231-233). -/
def setUseragent (c : Configuration) (a : Args) : Configuration :=
  match a.useragent with
  | some u => { c with useragent := u }
  | none => c

/-- CLI override for timeout (src/config.rs lines 235-238). -/
def setTimeout (c : Configuration) (a : Args) : Configuration :=
  match a.timeout with
  | some t => { c with timeout := t }
  | none => c

/-- CLI override for follow_redirects (src/config.rs lines 240-242). -/
def setFollowRedirects (c : Configuration) (a : Args) : Configuration :=
  if a.follow_redirects then { c with follow_redirects := a.follow_redirects } else c

/-- CLI override for norecursion (src/config.rs lines 243-245). -/
def setNoRecursion (c : Configuration) (a : Args) : Configuration :=
  if a.norecursion then { c with norecursion := a.norecursion } else c

/-- CLI override for insecure (src/config.rs lines 247-249). -/
def setInsecure (c : Configuration) (a : Args) : Configuration :=
  if a.insecure then { c with insecure := a.insecure } else c

/-- Rust str::trim: remove whitespace from both ends (an executable stand-in
for String.trim, which does not reduce definitionally). -/
def trimString (s : String) : String :=
  String.mk (((s.toList.dropWhile Char.isWhitespace).reverse.dropWhile
    Char.isWhitespace).reverse)

/-- Splitting of one -H header spec (src/config.rs lines 253-255): two calls
to next() on split(':'), each unwrapped, each side trimmed.  The first next()
always yields the part before the first colon; the second yields the part
between the first and second colon and is None when the spec contains no
colon, in which case the unwrap panics; the panic is modelled as none. -/
def headerSplit (val : String) : Option (String × String) :=
  match splitChar ':' val.toList with
  | name :: value :: _ => some (trimString name, trimString value)
  | _ => none

/-- HashMap::insert on the association-list model: replace the value of an
existing key, else append the pair. -/
def insertHeader (m : List (String × String)) (k v : String) :
    List (String × String) :=
  if m.any (fun p => p.1 = k) then
    m.map (fun p => if p.1 = k then (k, v) else p)
  else m ++ [(k, v)]

/-- The headers loop of Configuration::new (src/config.rs lines 251-258):
when the flag is present, split and insert each spec in order; a panic during
splitting (missing colon) is modelled as none. -/
def applyHeaders (m : List (String × String)) :
    Option (List String) → Option (List (String × String))
  | none => some m
  | some specs =>
    specs.foldlM (fun acc v => (headerSplit v).map (fun p => insertHeader acc p.1 p.2)) m

/-- CLI override for headers; none models the unwrap panic on a malformed
spec. -/
def setHeaders (c : Configuration) (a : Args) : Option Configuration :=
  match applyHeaders c.headers a.headers with
  | none => none
  | some hs => some { c with headers := hs }

/-- The client-rebuild condition of src/config.rs lines 263-269: some
client-affecting field differs from its built-in default. -/
def clientGate (c : Configuration) : Bool :=
  !(c.proxy == "") || !(c.timeout == defaultTimeout) ||
    !(c.useragent == defaultUseragent) || c.follow_redirects || c.insecure ||
    decide (0 < c.headers.length)

/-- The client rebuild of src/config.rs lines 260-289: when the gate fires,
rebuild the client from the merged fields, routing an empty proxy through
the proxy-less constructor branch and a non-empty proxy through the proxy
branch. -/
def applyGate (c : Configuration) : Configuration :=
  if clientGate c then
    if c.proxy == "" then
      { c with client :=
          (clientInitialize c.timeout c.useragent c.follow_redirects c.insecure
            c.headers none) }
    else
      { c with client :=
          (clientInitialize c.timeout c.useragent c.follow_redirects c.insecure
            c.headers (some c.proxy)) }
  else c

/-- Embedding of Configuration::new (src/config.rs lines 139-293): defaults,
then the config-file layer, then the command-line overrides in source order,
then the client rebuild.  The result is none exactly when the headers loop
panics on a colon-less spec. -/
def mergeConfig (fs : Option FileSettings) (a : Args) : Option Configuration :=
  let c := applyFile defaultConfiguration fs
  let c := setThreads c a
  let c := setWordlist c a
  let c := setOutput c a
  let c := setStatusCodes c a
  let c := setExtensions c a
  let c := setQuiet c a
  let c := setVerbosity c a
  let c := setTargetUrl c a
  let c := setProxy c a
  let c := setUseragent c a
  let c := setTimeout c a
  let c := setFollowRedirects c a
  let c := setNoRecursion c a
  let c := setInsecure c a
  match setHeaders c a with
  | none => none
  | some c => some (applyGate c)

/-- A concrete configuration with one extension, used by witnesses. -/
def jsOnly : UrlConfig := { extensions := ["js"], add_slash := false, queries := [] }

/-- The URLs formatted_urls collects for a list of extension arguments: the
successful format results, in argument order. -/
def collectedUrls (cfg : UrlConfig) (target word : String)
    (forms : List (Option String)) : List Url :=
  forms.filterMap (fun e => (format cfg target word e).toOption)

/-- The events formatted_urls sends for a list of extension arguments: one
UrlFormat error per failed format, in argument order. -/
def emittedEvents (cfg : UrlConfig) (target word : String)
    (forms : List (Option String)) : List StatsCommand :=
  (forms.filter (fun e => !(format cfg target word e).isOk)).map
    (fun _ => StatsCommand.addErrorUrlFormat)

/-- The operation the spec calls standard relative-URL join of a word
against the slash-normalized base: parse the normalized target and join the
word against it. -/
def joinAgainstNormalized (target w : String) : Except String Url :=
  match parseUrl (normalize target) with
  | .error e => .error e
  | .ok base => joinUrl base w

/-- The configuration after the defaults and the file layer, before any
command-line override. -/
def fileLayer (fs : Option FileSettings) : Configuration :=
  applyFile defaultConfiguration fs

/-- The configuration just before the headers loop of Configuration::new:
file layer plus every scalar command-line override in source order. -/
def preHeaders (fs : Option FileSettings) (a : Args) : Configuration :=
  setInsecure (setNoRecursion (setFollowRedirects (setTimeout (setUseragent
    (setProxy (setTargetUrl (setVerbosity (setQuiet (setExtensions
      (setStatusCodes (setOutput (setWordlist (setThreads
        (applyFile defaultConfiguration fs) a) a) a) a) a) a) a) a) a) a) a)
          a) a) a

/-- Concrete file settings with threads 40, used by the C5 example. -/
def fs40 : FileSettings := { defaultFileSettings with threads := 40 }

/-- The configuration merged from fs40 and a bare command line. -/
def merged40 : Configuration :=
  (mergeConfig (some fs40) (Args.onlyUrl "http://localhost")).getD
    defaultConfiguration

/-- A command line supplying only the target and a proxy. -/
def argsProxy : Args :=
  { (Args.onlyUrl "http://localhost") with proxy := some "http://p:8080" }

/-- The configuration merged from no file and argsProxy. -/
def mergedProxy : Configuration :=
  (mergeConfig none argsProxy).getD defaultConfiguration

/-- A command line whose one header spec has no colon. -/
def argsNoColon : Args :=
  { (Args.onlyUrl "http://localhost") with headers := some ["Authorization"] }

end Ferox

section ScratchChecks

open Ferox

example : parseUrl "http://localhost" =
    .ok { scheme := "http", host := some "localhost", port := none,
          path := [""], query := none } := by decide

example : parseUrl "http://localhost/" =
    .ok { scheme := "http", host := some "localhost", port := none,
          path := [""], query := none } := by decide

example : parseUrl "http://localhost/src/" =
    .ok { scheme := "http", host := some "localhost", port := none,
          path := ["src", ""], query := none } := by decide

example : (parseUrl "turbo").isOk = false := by decide

example : (parseUrl "//upload/img").isOk = false := by decide

example : (parseUrl "http://schmocalhost").isOk = true := by decide

example :
    joinUrl { scheme := "http", host := some "localhost", port := none,
              path := [""], query := none } "turbo" =
    .ok { scheme := "http", host := some "localhost", port := none,
          path := ["turbo"], query := none } := by decide

example :
    joinUrl { scheme := "http", host := some "localhost", port := none,
              path := [""], query := none } "stuff/" =
    .ok { scheme := "http", host := some "localhost", port := none,
          path := ["stuff", ""], query := none } := by decide

-- mirrors test format_url_normal
example : format .default "http://localhost" "stuff" none =
    .ok { scheme := "http", host := some "localhost", port := none,
          path := ["stuff"], query := none } := by decide

-- mirrors test format_url_no_word
example : format .default "http://localhost" "" none =
    .ok { scheme := "http", host := some "localhost", port := none,
          path := [""], query := none } := by decide

-- mirrors test format_url_joins_queries
example :
    format { UrlConfig.default with queries := [("stuff", "things")] }
      "http://localhost" "lazer" none =
    .ok { scheme := "http", host := some "localhost", port := none,
          path := ["lazer"], query := some "stuff=things" } := by decide

-- mirrors test format_url_without_word_joins_queries
example :
    format { UrlConfig.default with queries := [("stuff", "things")] }
      "http://localhost" "" none =
    .ok { scheme := "http", host := some "localhost", port := none,
          path := [""], query := some "stuff=things" } := by decide

-- mirrors test format_url_no_url (empty target is an error)
example : (format .default "" "stuff" none).isOk = false := by decide

-- mirrors test format_url_word_with_preslash
example : format .default "http://localhost" "/stuff" none =
    .ok { scheme := "http", host := some "localhost", port := none,
          path := ["stuff"], query := none } := by decide

-- mirrors test format_url_word_with_postslash
example : format .default "http://localhost" "stuff/" none =
    .ok { scheme := "http", host := some "localhost", port := none,
          path := ["stuff", ""], query := none } := by decide

-- mirrors test format_url_word_with_two_prepended_slashes
example : format .default "http://localhost" "//upload/img" none =
    .ok { scheme := "http", host := some "localhost", port := none,
          path := ["upload", "img"], query := none } := by decide

-- mirrors test format_url_word_that_is_a_url
example : (format .default "http://localhost" "http://schmocalhost" none).isOk = false := by
  decide

-- mirrors test formatted_urls_no_extension_returns_base_url_with_word
example :
    formattedUrls .default "http://localhost" { ok := true, sent := [] } "turbo" =
    .ok ([{ scheme := "http", host := some "localhost", port := none,
            path := ["turbo"], query := none }],
         { ok := true, sent := [] }) := by decide

-- mirrors test formatted_urls_one_extension_returns_two_urls
example :
    formattedUrls { UrlConfig.default with extensions := ["js"] }
      "http://localhost" { ok := true, sent := [] } "turbo" =
    .ok ([{ scheme := "http", host := some "localhost", port := none,
            path := ["turbo"], query := none },
          { scheme := "http", host := some "localhost", port := none,
            path := ["turbo.js"], query := none }],
         { ok := true, sent := [] }) := by decide

-- mirrors tests depth_base_url_returns_1 and friends
example : depth "http://localhost" = .ok 1 := by decide
example : depth "http://localhost/" = .ok 1 := by decide
example : depth "http://localhost/src" = .ok 2 := by decide
example : depth "http://localhost/src/" = .ok 2 := by decide

-- config merge scratch checks
example :
    (mergeConfig (some { defaultFileSettings with threads := 40 : FileSettings })
        (Args.onlyUrl "http://localhost")).map Configuration.threads = some 40 := by
  rfl

example :
    (mergeConfig (some { defaultFileSettings with threads := 40 : FileSettings })
        { (Args.onlyUrl "http://localhost") with threads := some 10 }).map
      Configuration.threads = some 10 := by
  rfl

example : headerSplit "stuff: things" = some ("stuff", "things") := by rfl
example : headerSplit "NoDelimiterHere" = none := by rfl
example :
    mergeConfig none
      { (Args.onlyUrl "http://localhost") with headers := some ["NoDelimiterHere"] } =
      none := by rfl

example :
    (mergeConfig none (Args.onlyUrl "http://localhost")).map Configuration.client =
      some defaultConfiguration.client := by rfl

example :
    (mergeConfig none
        { (Args.onlyUrl "http://localhost") with proxy := some "http://p:8080" }).map
      (fun c => c.client.proxy) = some (some "http://p:8080") := by rfl

end ScratchChecks

namespace Ferox

theorem toList_append (s t : String) : (s ++ t).toList = s.toList ++ t.toList := by
  simp [String.toList]

theorem endsWithSlash_concat (s : String) : endsWithSlash (s ++ "/") = true := by
  simp [endsWithSlash, toList_append]

theorem normalize_idem (t : String) : normalize (normalize t) = normalize t := by
  unfold normalize
  by_cases h : endsWithSlash t = true
  · simp [h]
  · simp [h, endsWithSlash_concat]

theorem normalize_concat_slash (t : String) (h : endsWithSlash t = false) :
    normalize (t ++ "/") = normalize t := by
  unfold normalize
  simp [h, endsWithSlash_concat]

theorem foldlM_formatStep_ok_channel (cfg : UrlConfig) (target word : String)
    (forms : List (Option String)) :
    ∀ (us : List Url) (ch : StatsChannel), ch.ok = true →
      forms.foldlM (formatStep cfg target word) (us, ch) =
        .ok (us ++ collectedUrls cfg target word forms,
             { ch with sent := ch.sent ++ emittedEvents cfg target word forms }) := by
  induction forms with
  | nil =>
    intro us ch _
    simp [collectedUrls, emittedEvents]
    rfl
  | cons e es ih =>
    intro us ch hok
    rw [List.foldlM_cons]
    cases h : format cfg target word e with
    | ok u =>
      have step : formatStep cfg target word (us, ch) e = .ok (us ++ [u], ch) := by
        simp [formatStep, h]
      rw [step]
      show es.foldlM (formatStep cfg target word) (us ++ [u], ch) = _
      rw [ih (us ++ [u]) ch hok]
      simp [collectedUrls, emittedEvents, List.filterMap_cons, List.filter_cons, h,
        Except.toOption, Except.isOk, Except.toBool]
    | error msg =>
      have step : formatStep cfg target word (us, ch) e =
          .ok (us, { ch with sent := ch.sent ++ [.addErrorUrlFormat] }) := by
        simp [formatStep, h, StatsChannel.send, hok]
      rw [step]
      show es.foldlM (formatStep cfg target word)
        (us, { ch with sent := ch.sent ++ [.addErrorUrlFormat] }) = _
      rw [ih us _ (by simp [hok])]
      simp [collectedUrls, emittedEvents, List.filterMap_cons, List.filter_cons, h,
        Except.toOption, Except.isOk, Except.toBool, List.replicate_succ]

theorem formattedUrls_ok_channel (cfg : UrlConfig) (target word : String)
    (ch : StatsChannel) (hok : ch.ok = true) :
    formattedUrls cfg target ch word =
      .ok (collectedUrls cfg target word (extensionForms cfg),
           { ch with sent :=
              ch.sent ++ emittedEvents cfg target word (extensionForms cfg) }) := by
  unfold formattedUrls
  rw [foldlM_formatStep_ok_channel cfg target word (extensionForms cfg) [] ch hok]
  simp

theorem foldlM_formatStep_error_implies (cfg : UrlConfig) (target word : String)
    (forms : List (Option String)) :
    ∀ (us : List Url) (ch : StatsChannel) (msg : String),
      forms.foldlM (formatStep cfg target word) (us, ch) = .error msg →
      ∃ e ∈ forms, (format cfg target word e).isOk = false := by
  induction forms with
  | nil => intro us ch msg h; simp [pure, Except.pure] at h
  | cons e es ih =>
    intro us ch msg h
    rw [List.foldlM_cons] at h
    cases hf : format cfg target word e with
    | ok u =>
      have step : formatStep cfg target word (us, ch) e = .ok (us ++ [u], ch) := by
        simp [formatStep, hf]
      rw [step] at h
      obtain ⟨x, hx, hfail⟩ := ih (us ++ [u]) ch msg h
      exact ⟨x, List.mem_cons_of_mem _ hx, hfail⟩
    | error m =>
      refine ⟨e, List.mem_cons_self .., by rw [hf]; rfl⟩

theorem schemeGo_append (m : List Char) :
    ∀ (l : List Char) (acc : List Char) (sch : String) (r : List Char),
      schemeGo acc l = some (sch, r) →
      schemeGo acc (l ++ m) = some (sch, r ++ m) := by
  intro l
  induction l with
  | nil => intro acc sch r h; simp [schemeGo] at h
  | cons c cs ih =>
    intro acc sch r h
    by_cases hc : c = ':'
    · rw [List.cons_append]
      unfold schemeGo at h ⊢
      rw [if_pos hc] at h ⊢
      obtain ⟨h1, h2⟩ := Prod.mk.injEq .. ▸ Option.some.injEq .. ▸ h
      rw [← h1, ← h2]
    · by_cases hsc : isSchemeChar c = true
      · rw [List.cons_append]
        unfold schemeGo at h ⊢
        rw [if_neg hc, if_pos hsc] at h ⊢
        exact ih _ sch r h
      · unfold schemeGo at h
        rw [if_neg hc, if_neg hsc] at h
        exact absurd h (by simp)

theorem schemeSplit_append (l m : List Char) (sch : String) (r : List Char)
    (h : schemeSplit l = some (sch, r)) :
    schemeSplit (l ++ m) = some (sch, r ++ m) := by
  cases l with
  | nil => simp [schemeSplit] at h
  | cons c cs =>
    rw [List.cons_append]
    simp only [schemeSplit] at h ⊢
    by_cases hc : c.isAlpha = true
    · rw [if_pos hc] at h
      rw [if_pos hc]
      exact schemeGo_append m cs [c] sch r h
    · rw [if_neg hc] at h
      exact absurd h (by simp)

theorem schemeGo_suffix :
    ∀ (l : List Char) (acc : List Char) (sch : String) (r : List Char),
      schemeGo acc l = some (sch, r) → ∃ pre, l = pre ++ r := by
  intro l
  induction l with
  | nil => intro acc sch r h; simp [schemeGo] at h
  | cons c cs ih =>
    intro acc sch r h
    by_cases hc : c = ':'
    · unfold schemeGo at h
      rw [if_pos hc] at h
      obtain ⟨-, h2⟩ := Prod.mk.injEq .. ▸ Option.some.injEq .. ▸ h
      exact ⟨[c], by rw [h2]; rfl⟩
    · by_cases hsc : isSchemeChar c = true
      · unfold schemeGo at h
        rw [if_neg hc, if_pos hsc] at h
        obtain ⟨pre, hpre⟩ := ih _ sch r h
        exact ⟨c :: pre, by rw [List.cons_append, hpre]⟩
      · unfold schemeGo at h
        rw [if_neg hc, if_neg hsc] at h
        exact absurd h (by simp)

theorem schemeSplit_suffix (l : List Char) (sch : String) (r : List Char)
    (h : schemeSplit l = some (sch, r)) : ∃ pre, l = pre ++ r := by
  cases l with
  | nil => simp [schemeSplit] at h
  | cons c cs =>
    simp only [schemeSplit] at h
    by_cases hc : c.isAlpha = true
    · rw [if_pos hc] at h
      obtain ⟨pre, hpre⟩ := schemeGo_suffix cs [c] sch r h
      exact ⟨c :: pre, by rw [List.cons_append, hpre]⟩
    · rw [if_neg hc] at h
      exact absurd h (by simp)

theorem takeUntil_nostop :
    ∀ (p : Char → Bool) (l : List Char), (takeUntil p l).2 = [] →
      (takeUntil p l).1 = l := by
  intro p l
  induction l with
  | nil => intro _; rfl
  | cons c cs ih =>
    intro h
    unfold takeUntil at h ⊢
    by_cases hc : p c = true
    · rw [if_pos hc] at h; exact absurd h (by simp)
    · rw [if_neg hc] at h ⊢
      simp only at h ⊢
      rw [ih h]

theorem takeUntil_stop_append :
    ∀ (p : Char → Bool) (l m : List Char) (c : Char) (cs : List Char),
      (takeUntil p l).2 = c :: cs →
      takeUntil p (l ++ m) = ((takeUntil p l).1, c :: (cs ++ m)) := by
  intro p l
  induction l with
  | nil => intro m c cs h; simp [takeUntil] at h
  | cons a as ih =>
    intro m c cs h
    rw [List.cons_append]
    simp only [takeUntil] at h ⊢
    by_cases ha : p a = true
    · rw [if_pos ha] at h ⊢
      simp only at h
      obtain ⟨h1, h2⟩ := List.cons.injEq .. ▸ h
      rw [← h1, ← h2]
      simp [ha]
    · rw [if_neg ha] at h ⊢
      simp only at h ⊢
      rw [ih m c cs h]
      simp [ha]

theorem takeUntil_nostop_append_stop :
    ∀ (p : Char → Bool) (l : List Char) (a : Char), (takeUntil p l).2 = [] →
      p a = true → takeUntil p (l ++ [a]) = (l, [a]) := by
  intro p l
  induction l with
  | nil => intro a _ hpa; simp [takeUntil, hpa]
  | cons c cs ih =>
    intro a h hpa
    rw [List.cons_append]
    simp only [takeUntil] at h ⊢
    by_cases hc : p c = true
    · rw [if_pos hc] at h; exact absurd h (by simp)
    · rw [if_neg hc] at h ⊢
      simp only at h ⊢
      rw [ih a h hpa]

theorem parseAuthority_slash (sch : String) (r : List Char) (b : Url)
    (h : parseAuthority sch r = .ok b) :
    ∃ b', parseAuthority sch (r ++ ['/']) = .ok b' ∧
      b'.scheme = b.scheme ∧ b'.host = b.host ∧ b'.port = b.port := by
  simp only [parseAuthority] at h ⊢
  cases hstop : (takeUntil (fun c => c = '/' || c = '?') r).2 with
  | nil =>
    have h1 : (takeUntil (fun c => c = '/' || c = '?') r).1 = r :=
      takeUntil_nostop _ _ hstop
    have h2 : takeUntil (fun c => c = '/' || c = '?') (r ++ ['/']) = (r, ['/']) :=
      takeUntil_nostop_append_stop _ r '/' hstop (by decide)
    rw [h1, hstop] at h
    rw [h2]
    have hpq : pathQuery [] = pathQuery ['/'] := by decide
    rw [← hpq]
    exact ⟨b, h, rfl, rfl, rfl⟩
  | cons c cs =>
    have h2 : takeUntil (fun c => c = '/' || c = '?') (r ++ ['/']) =
        ((takeUntil (fun c => c = '/' || c = '?') r).1, c :: (cs ++ ['/'])) :=
      takeUntil_stop_append _ r ['/'] c cs hstop
    rw [hstop] at h
    rw [h2]
    by_cases hhost :
        ((takeUntil (fun c => c = ':')
          (takeUntil (fun c => c = '/' || c = '?') r).1).1.isEmpty &&
          isSpecialScheme sch) = true
    · rw [if_pos hhost] at h
      exact absurd h (by simp)
    · rw [if_neg hhost] at h
      rw [if_neg hhost]
      cases hport : parsePort (takeUntil (fun c => c = ':')
          (takeUntil (fun c => c = '/' || c = '?') r).1).2 with
      | error e =>
        rw [hport] at h
        exact absurd h (by simp)
      | ok port =>
        rw [hport] at h
        obtain rfl := (Except.ok.injEq .. ▸ h).symm
        exact ⟨_, rfl, rfl, rfl, rfl⟩

theorem parseUrlChars_append_slash (l : List Char) (b : Url)
    (hlast : l.getLast? ≠ some '/')
    (h : parseUrlChars l = .ok b) :
    ∃ b', parseUrlChars (l ++ ['/']) = .ok b' ∧
      b'.scheme = b.scheme ∧ b'.host = b.host ∧ b'.port = b.port := by
  cases hss : schemeSplit l with
  | none =>
    simp only [parseUrlChars, hss] at h
    exact absurd h (by simp)
  | some p =>
    obtain ⟨sch, rest⟩ := p
    have hsuf := schemeSplit_suffix l sch rest hss
    have hss2 := schemeSplit_append l ['/'] sch rest hss
    simp only [parseUrlChars, hss, hss2] at h ⊢
    split at h
    · rename_i r
      obtain ⟨b', hb', e1, e2, e3⟩ := parseAuthority_slash sch r b h
      exact ⟨b', hb', e1, e2, e3⟩
    · rename_i hnm
      injection h with hh
      subst hh
      split
      · rename_i r2 heq2
        exfalso
        rcases rest with - | ⟨c1, - | ⟨c2, t⟩⟩
        · simp at heq2
        · obtain ⟨hc1, hr2⟩ := List.cons.injEq .. ▸ heq2
          obtain ⟨hc2, -⟩ := List.cons.injEq .. ▸ hr2
          subst hc1
          obtain ⟨pre, hpre⟩ := hsuf
          apply hlast
          rw [hpre]
          exact List.getLast?_concat pre
        · obtain ⟨hc1, hr2⟩ := List.cons.injEq .. ▸ heq2
          obtain ⟨hc2, -⟩ := List.cons.injEq .. ▸ hr2
          exact hnm t (by rw [hc1, hc2])
      · exact ⟨_, rfl, rfl, rfl, rfl⟩

theorem parseUrl_normalize_authority (t : String) (b : Url)
    (hb : parseUrl t = .ok b) :
    ∃ b', parseUrl (normalize t) = .ok b' ∧
      b'.scheme = b.scheme ∧ b'.host = b.host ∧ b'.port = b.port := by
  unfold normalize
  by_cases he : endsWithSlash t = true
  · rw [if_pos he]
    exact ⟨b, hb, rfl, rfl, rfl⟩
  · rw [if_neg he]
    unfold parseUrl at hb ⊢
    rw [toList_append]
    have hs : ("/" : String).toList = ['/'] := rfl
    rw [hs]
    refine parseUrlChars_append_slash t.toList b ?_ hb
    intro hcon
    apply he
    simp only [endsWithSlash, decide_eq_true_eq]
    exact hcon

theorem joinUrl_preserves_authority (base u : Url) (w : String)
    (hpw : (parseUrl w).isOk = false)
    (hts : startsWithTwoSlashes w = false)
    (hj : joinUrl base w = .ok u) :
    u.scheme = base.scheme ∧ u.host = base.host ∧ u.port = base.port := by
  by_cases hw0 : w = ""
  · subst hw0
    unfold joinUrl at hj
    rw [if_pos rfl] at hj
    injection hj with hh
    subst hh
    exact ⟨rfl, rfl, rfl⟩
  · unfold joinUrl at hj
    rw [if_neg hw0] at hj
    split at hj
    · unfold parseUrl at hpw
      rw [hj] at hpw
      simp [Except.isOk, Except.toBool] at hpw
    · split at hj
      · rename_i r heq
        unfold startsWithTwoSlashes at hts
        rw [heq] at hts
        simp at hts
      · split at hj
        · exact absurd hj (by simp)
        · split at hj
          · injection hj with hji
            subst hji
            exact ⟨rfl, rfl, rfl⟩
          · injection hj with hji
            subst hji
            exact ⟨rfl, rfl, rfl⟩
          · injection hj with hji
            subst hji
            exact ⟨rfl, rfl, rfl⟩

theorem format_join_eq (cfg : UrlConfig) (target w : String)
    (hq : cfg.queries = []) (hsl : cfg.add_slash = false) (hw : w ≠ "")
    (hpw : (parseUrl w).isOk = false) (hts : startsWithTwoSlashes w = false) :
    format cfg target w none = joinAgainstNormalized target w := by
  unfold format joinAgainstNormalized
  rw [hpw]
  simp only [Bool.false_eq_true, if_false]
  have hew : effectiveWord cfg w none = w := by
    simp [effectiveWord, hsl, hts]
  rw [hew]
  rw [if_neg hw, hq]
  have hurl : (if !endsWithSlash target then target ++ "/" else target) =
      normalize target := by
    unfold normalize
    cases he : endsWithSlash target <;> simp [he]
  rw [hurl]
  cases hpb : parseUrl (normalize target) with
  | error e => rfl
  | ok base =>
    cases hjb : joinUrl base w with
    | error e =>
      simp only []
      rw [hjb]
    | ok j =>
      simp only []
      rw [hjb]
      simp

theorem format_empty_word (cfg : UrlConfig) (target : String)
    (hq : cfg.queries = []) (hsl : cfg.add_slash = false) :
    format cfg target "" none = parseUrl target := by
  unfold format
  have hp0 : (parseUrl "").isOk = false := by decide
  rw [hp0]
  simp only [Bool.false_eq_true, if_false]
  have hew : effectiveWord cfg "" none = "" := by
    simp [effectiveWord, hsl]
    decide
  rw [hew]
  simp only [ite_true]
  rw [hq]
  cases hpb : parseUrl target with
  | error e => rfl
  | ok base =>
    have hjb : joinUrl base "" = .ok base := by
      unfold joinUrl
      rw [if_pos rfl]
    simp only []
    rw [hjb]
    simp

theorem format_authority (cfg : UrlConfig) (target w : String) (u b : Url)
    (hq : cfg.queries = []) (hsl : cfg.add_slash = false)
    (hpw : (parseUrl w).isOk = false) (hts : startsWithTwoSlashes w = false)
    (hfmt : format cfg target w none = .ok u) (hpt : parseUrl target = .ok b) :
    u.scheme = b.scheme ∧ u.host = b.host ∧ u.port = b.port := by
  by_cases hw0 : w = ""
  · subst hw0
    rw [format_empty_word cfg target hq hsl] at hfmt
    rw [hfmt] at hpt
    injection hpt with hub
    rw [hub]
    exact ⟨rfl, rfl, rfl⟩
  · rw [format_join_eq cfg target w hq hsl hw0 hpw hts] at hfmt
    unfold joinAgainstNormalized at hfmt
    obtain ⟨b', hb', e1, e2, e3⟩ := parseUrl_normalize_authority target b hpt
    rw [hb'] at hfmt
    obtain ⟨f1, f2, f3⟩ := joinUrl_preserves_authority b' u w hpw hts hfmt
    exact ⟨f1.trans e1, f2.trans e2, f3.trans e3⟩

@[simp] theorem setThreads_eq (c : Configuration) (a : Args) :
    setThreads c a = { c with threads := a.threads.getD c.threads } := by
  cases h : a.threads <;> simp [setThreads, h]

@[simp] theorem setWordlist_eq (c : Configuration) (a : Args) :
    setWordlist c a = { c with wordlist := a.wordlist.getD c.wordlist } := by
  cases h : a.wordlist <;> simp [setWordlist, h]

@[simp] theorem setOutput_eq (c : Configuration) (a : Args) :
    setOutput c a = { c with output := a.output.getD c.output } := by
  cases h : a.output <;> simp [setOutput, h]

@[simp] theorem setStatusCodes_eq (c : Configuration) (a : Args) :
    setStatusCodes c a =
      { c with statuscodes := a.statuscodes.getD c.statuscodes } := by
  cases h : a.statuscodes <;> simp [setStatusCodes, h]

@[simp] theorem setExtensions_eq (c : Configuration) (a : Args) :
    setExtensions c a =
      { c with extensions := a.extensions.getD c.extensions } := by
  cases h : a.extensions <;> simp [setExtensions, h]

@[simp] theorem setQuiet_eq (c : Configuration) (a : Args) :
    setQuiet c a = { c with quiet := c.quiet || a.quiet } := by
  cases h : a.quiet <;> simp [setQuiet, h]

@[simp] theorem setVerbosity_eq (c : Configuration) (a : Args) :
    setVerbosity c a =
      { c with verbosity :=
          if 0 < a.verbosity then a.verbosity % 256 else c.verbosity } := by
  by_cases h : 0 < a.verbosity <;> simp [setVerbosity, h]

@[simp] theorem setTargetUrl_eq (c : Configuration) (a : Args) :
    setTargetUrl c a = { c with target_url := a.url } := rfl

@[simp] theorem setProxy_eq (c : Configuration) (a : Args) :
    setProxy c a = { c with proxy := a.proxy.getD c.proxy } := by
  cases h : a.proxy <;> simp [setProxy, h]

@[simp] theorem setUseragent_eq (c : Configuration) (a : Args) :
    setUseragent c a = { c with useragent := a.useragent.getD c.useragent } := by
  cases h : a.useragent <;> simp [setUseragent, h]

@[simp] theorem setTimeout_eq (c : Configuration) (a : Args) :
    setTimeout c a = { c with timeout := a.timeout.getD c.timeout } := by
  cases h : a.timeout <;> simp [setTimeout, h]

@[simp] theorem setFollowRedirects_eq (c : Configuration) (a : Args) :
    setFollowRedirects c a =
      { c with follow_redirects := c.follow_redirects || a.follow_redirects } := by
  cases h : a.follow_redirects <;> simp [setFollowRedirects, h]

@[simp] theorem setNoRecursion_eq (c : Configuration) (a : Args) :
    setNoRecursion c a =
      { c with norecursion := c.norecursion || a.norecursion } := by
  cases h : a.norecursion <;> simp [setNoRecursion, h]

@[simp] theorem setInsecure_eq (c : Configuration) (a : Args) :
    setInsecure c a = { c with insecure := c.insecure || a.insecure } := by
  cases h : a.insecure <;> simp [setInsecure, h]

theorem applyGate_eq (c : Configuration) :
    applyGate c = { c with client :=
      (if clientGate c then
        clientInitialize c.timeout c.useragent c.follow_redirects c.insecure
          c.headers (if c.proxy == "" then none else some c.proxy)
      else c.client) } := by
  unfold applyGate
  by_cases h : clientGate c = true
  · rw [if_pos h, if_pos h]
    by_cases hp : (c.proxy == "") = true
    · rw [if_pos hp, if_pos hp]
    · rw [if_neg hp, if_neg hp]
  · rw [if_neg h, if_neg h]

theorem mergeConfig_eq (fs : Option FileSettings) (a : Args) :
    mergeConfig fs a =
      (applyHeaders (preHeaders fs a).headers a.headers).map
        (fun hs => applyGate { preHeaders fs a with headers := hs }) := by
  unfold mergeConfig setHeaders
  cases h : applyHeaders (applyFile defaultConfiguration fs).headers a.headers with
  | none => simp [preHeaders, h]
  | some hs => simp [preHeaders, h]

theorem preHeaders_headers (fs : Option FileSettings) (a : Args) :
    (preHeaders fs a).headers = (fileLayer fs).headers := by
  simp [preHeaders, fileLayer]

theorem mergeConfig_some (fs : Option FileSettings) (a : Args)
    (cfg : Configuration) (h : mergeConfig fs a = some cfg) :
    ∃ hs, applyHeaders (preHeaders fs a).headers a.headers = some hs ∧
      cfg = applyGate { preHeaders fs a with headers := hs } := by
  rw [mergeConfig_eq] at h
  cases hh : applyHeaders (preHeaders fs a).headers a.headers with
  | none =>
    rw [hh] at h
    exact absurd h (by simp)
  | some hs =>
    rw [hh] at h
    simp only [Option.map_some] at h
    injection h with h
    exact ⟨hs, rfl, h.symm⟩

theorem applyFile_client (c : Configuration) (fs : Option FileSettings) :
    (applyFile c fs).client = c.client := by
  cases fs <;> rfl

theorem applyGate_spec (c : Configuration)
    (hc : c.client = defaultConfiguration.client) :
    ((applyGate c).client ≠ defaultConfiguration.client ↔
      (c.proxy ≠ "" ∨ c.timeout ≠ defaultTimeout ∨
        c.useragent ≠ defaultUseragent ∨ c.follow_redirects = true ∨
        c.insecure = true ∨ c.headers ≠ [])) ∧
    ((c.proxy ≠ "" ∨ c.timeout ≠ defaultTimeout ∨
        c.useragent ≠ defaultUseragent ∨ c.follow_redirects = true ∨
        c.insecure = true ∨ c.headers ≠ []) →
      (applyGate c).client = clientInitialize c.timeout c.useragent
        c.follow_redirects c.insecure c.headers
        (if c.proxy = "" then none else some c.proxy)) ∧
    (¬(c.proxy ≠ "" ∨ c.timeout ≠ defaultTimeout ∨
        c.useragent ≠ defaultUseragent ∨ c.follow_redirects = true ∨
        c.insecure = true ∨ c.headers ≠ []) →
      (applyGate c).client = defaultConfiguration.client) := by
  have hgi : clientGate c = true ↔
      (c.proxy ≠ "" ∨ c.timeout ≠ defaultTimeout ∨
        c.useragent ≠ defaultUseragent ∨ c.follow_redirects = true ∨
        c.insecure = true ∨ c.headers ≠ []) := by
    simp [clientGate, Bool.or_eq_true, Bool.not_eq_true', beq_eq_false_iff_ne,
      List.length_pos, defaultTimeout]
    tauto
  by_cases hg : clientGate c = true
  · have hgp := hgi.mp hg
    have hclient : (applyGate c).client = clientInitialize c.timeout
        c.useragent c.follow_redirects c.insecure c.headers
        (if c.proxy = "" then none else some c.proxy) := by
      rw [applyGate_eq]
      simp only [hg, if_true]
      by_cases hp : c.proxy = ""
      · simp [hp]
      · simp [hp]
    refine ⟨?_, fun _ => hclient, fun hn => absurd hgp hn⟩
    rw [hclient]
    constructor
    · intro _
      exact hgp
    · intro _ heq
      have h1 := congrArg Client.timeout heq
      have h2 := congrArg Client.useragent heq
      have h3 := congrArg Client.redirects heq
      have h4 := congrArg Client.insecure heq
      have h5 := congrArg Client.headers heq
      have h6 := congrArg Client.proxy heq
      simp [clientInitialize, defaultConfiguration, defaultTimeout]
        at h1 h2 h3 h4 h5 h6
      rcases hgp with h | h | h | h | h | h
      · exact h h6
      · exact h h1
      · exact h h2
      · exact absurd h (by simp [h3])
      · exact absurd h (by simp [h4])
      · exact h h5
  · have hgp : ¬(c.proxy ≠ "" ∨ c.timeout ≠ defaultTimeout ∨
        c.useragent ≠ defaultUseragent ∨ c.follow_redirects = true ∨
        c.insecure = true ∨ c.headers ≠ []) := fun hp => hg (hgi.mpr hp)
    have hclient : (applyGate c).client = defaultConfiguration.client := by
      rw [applyGate_eq]
      simp only [if_neg hg]
      exact hc
    refine ⟨?_, fun hdp => absurd hdp hgp, fun _ => hclient⟩
    rw [hclient]
    constructor
    · intro hcon
      exact absurd rfl hcon
    · intro hp
      exact absurd hp hgp

end Ferox

namespace FeroxClaims

open Ferox

/-- C7: for every target x, depth is invariant under normalization, i.e.
depth (normalize x) = depth x; normalize returns the target with a trailing
slash appended exactly when one is missing, so two targets differing only by
a trailing slash have the same normalized form and the same depth, and the
root has depth 1. -/
theorem depth_invariant_under_normalize :
    (∀ t : String, depth (normalize t) = depth t) ∧
    (∀ t : String, normalize t = if endsWithSlash t then t else t ++ "/") ∧
    (∀ t : String, endsWithSlash t = false →
      normalize t = normalize (t ++ "/") ∧ depth t = depth (t ++ "/")) ∧
    depth "http://localhost" = .ok 1 ∧ depth "http://localhost/" = .ok 1 := by
  refine ⟨fun t => ?_, fun t => rfl, fun t h => ⟨?_, ?_⟩, by decide, by decide⟩
  · show (match parseUrl (normalize (normalize t)) with
      | .error e => .error e
      | .ok parsed => match pathSegments parsed with
        | none => Except.error "No path segments found"
        | some parts => .ok parts.length) = depth t
    rw [normalize_idem]
    rfl
  · rw [normalize_concat_slash t h]
  · show depth t =
      (match parseUrl (normalize (t ++ "/")) with
        | .error e => .error e
        | .ok parsed => match pathSegments parsed with
          | none => Except.error "No path segments found"
          | some parts => .ok parts.length)
    rw [normalize_concat_slash t h]
    rfl

/-- Witness for C7 at a concrete target without a trailing slash. -/
theorem depth_invariant_under_normalize_witness :
    endsWithSlash "http://localhost" = false ∧
    (normalize "http://localhost" = normalize ("http://localhost" ++ "/") ∧
      depth "http://localhost" = depth ("http://localhost" ++ "/")) :=
  ⟨by decide,
   depth_invariant_under_normalize.2.2.1 "http://localhost" (by decide)⟩

/-- C1: a word that itself parses as an absolute URL makes format fail with
the skip message for every extension argument, every target and every
configuration (extensions, add-slash and query pairs included); the word is
never joined against the base. -/
theorem format_rejects_url_words :
    ∀ (cfg : UrlConfig) (target word : String) (ext : Option String),
      (parseUrl word).isOk = true →
      format cfg target word ext =
        .error ("word (" ++ word ++ ") from wordlist is a URL, skipping...") := by
  intro cfg target word ext h
  unfold format
  rw [h]
  simp

/-- Witness for C1: the full-URL word from the repository's own unit test,
with a non-default configuration. -/
theorem format_rejects_url_words_witness :
    (parseUrl "http://schmocalhost").isOk = true ∧
    format { extensions := ["js"], add_slash := true, queries := [("a", "b")] }
        "http://localhost" "http://schmocalhost" (some "js") =
      .error ("word (" ++ "http://schmocalhost" ++
        ") from wordlist is a URL, skipping...") :=
  ⟨by decide,
   format_rejects_url_words _ _ _ _ (by decide)⟩

/-- C3: the effective word used by format follows the exact precedence of
src/url.rs lines 100-117: extension appended when supplied; else a slash
appended when add_slash is set and the word lacks one; else all leading
slashes stripped when the word starts with two or more; else the word
unchanged.  Concretely, the word //upload/img against base http://localhost
produces http://localhost/upload/img. -/
theorem effective_word_precedence :
    (∀ (cfg : UrlConfig) (w e : String),
      effectiveWord cfg w (some e) = w ++ "." ++ e) ∧
    (∀ (cfg : UrlConfig) (w : String), cfg.add_slash = true →
      endsWithSlash w = false → effectiveWord cfg w none = w ++ "/") ∧
    (∀ (cfg : UrlConfig) (w : String),
      (cfg.add_slash = false ∨ endsWithSlash w = true) →
      startsWithTwoSlashes w = true →
      effectiveWord cfg w none = trimStartSlashes w) ∧
    (∀ (cfg : UrlConfig) (w : String),
      (cfg.add_slash = false ∨ endsWithSlash w = true) →
      startsWithTwoSlashes w = false →
      effectiveWord cfg w none = w) ∧
    format .default "http://localhost" "//upload/img" none =
      .ok { scheme := "http", host := some "localhost", port := none,
            path := ["upload", "img"], query := none } := by
  refine ⟨fun cfg w e => rfl, fun cfg w ha hs => ?_, fun cfg w ha hs => ?_,
    fun cfg w ha hs => ?_, by decide⟩
  · simp [effectiveWord, ha, hs]
  · rcases ha with ha | ha <;> simp [effectiveWord, ha, hs]
  · rcases ha with ha | ha <;> simp [effectiveWord, ha, hs]

/-- Witness for C3: each guarded branch instantiated concretely. -/
theorem effective_word_precedence_witness :
    effectiveWord { extensions := [], add_slash := true, queries := [] }
        "upload" none = "upload" ++ "/" ∧
    effectiveWord .default "//upload/img" none =
      trimStartSlashes "//upload/img" ∧
    effectiveWord .default "upload" none = "upload" :=
  ⟨effective_word_precedence.2.1 _ "upload" (by decide) (by decide),
   effective_word_precedence.2.2.1 _ "//upload/img" (Or.inl (by decide)) (by decide),
   effective_word_precedence.2.2.2.1 _ "upload" (Or.inl (by decide)) (by decide)⟩

/-- C2: for every word and configuration with k extensions, formatted_urls
returns at most k+1 URLs (fewer only when an individual format call fails),
ordered with the no-extension form first and then one URL per extension in
the configured order (the collected list is the order-preserving filterMap of
format over the no-extension form followed by the extensions); concretely,
base http://localhost with word turbo and extensions [js] yields
[http://localhost/turbo, http://localhost/turbo.js]. -/
theorem formatted_urls_k_plus_one_ordered :
    (∀ (cfg : UrlConfig) (target word : String) (ch : StatsChannel),
      ch.ok = true →
      ∃ ch' : StatsChannel,
        formattedUrls cfg target ch word =
          .ok ((none :: cfg.extensions.map some).filterMap
                (fun e => (format cfg target word e).toOption), ch') ∧
        ((none :: cfg.extensions.map some).filterMap
          (fun e => (format cfg target word e).toOption)).length ≤
            cfg.extensions.length + 1) ∧
    (∃ u1 u2 : Url,
      parseUrl "http://localhost/turbo" = .ok u1 ∧
      parseUrl "http://localhost/turbo.js" = .ok u2 ∧
      formattedUrls jsOnly "http://localhost" { ok := true, sent := [] } "turbo" =
        .ok ([u1, u2], { ok := true, sent := [] })) := by
  constructor
  · intro cfg target word ch hok
    have h := formattedUrls_ok_channel cfg target word ch hok
    have hlen : ((none :: cfg.extensions.map some).filterMap
        (fun e => (format cfg target word e).toOption)).length ≤
          cfg.extensions.length + 1 := by
      calc ((none :: cfg.extensions.map some).filterMap
            (fun e => (format cfg target word e).toOption)).length
          ≤ (none :: cfg.extensions.map some).length := List.length_filterMap_le _ _
        _ = cfg.extensions.length + 1 := by simp
    exact ⟨_, h, hlen⟩
  · exact ⟨{ scheme := "http", host := some "localhost", port := none,
             path := ["turbo"], query := none },
           { scheme := "http", host := some "localhost", port := none,
             path := ["turbo.js"], query := none },
           by decide, by decide, by decide⟩

/-- Witness for C2 at the concrete configuration of the claim. -/
theorem formatted_urls_k_plus_one_ordered_witness :
    ∃ ch' : StatsChannel,
      formattedUrls jsOnly "http://localhost" { ok := true, sent := [] } "turbo" =
        .ok ((none :: jsOnly.extensions.map some).filterMap
              (fun e => (format jsOnly "http://localhost" "turbo" e).toOption),
             ch') ∧
      ((none :: jsOnly.extensions.map some).filterMap
        (fun e => (format jsOnly "http://localhost" "turbo" e).toOption)).length ≤
          jsOnly.extensions.length + 1 :=
  formatted_urls_k_plus_one_ordered.1 jsOnly "http://localhost" "turbo" _ rfl

/-- C8: with a live stats channel, every failed word/extension combination
(the no-extension form included) sends exactly one UrlFormat soft-error event
before processing continues with the remaining forms: the channel ends up
with precisely one appended event per failing form, in form order, and no
recoverable failure goes without one. -/
theorem formatted_urls_event_per_failure :
    ∀ (cfg : UrlConfig) (target word : String) (ch : StatsChannel),
      ch.ok = true →
      ∃ urls : List Url,
        formattedUrls cfg target ch word =
          .ok (urls,
            { ch with sent :=
                (ch.sent ++ (((none :: cfg.extensions.map some).filter
                  (fun e => !(format cfg target word e).isOk)).map
                  (fun _ => StatsCommand.addErrorUrlFormat))) }) := by
  intro cfg target word ch hok
  have h := formattedUrls_ok_channel cfg target word ch hok
  exact ⟨_, h⟩

/-- Witness for C8: a word that is itself a URL fails for the bare form and
for the one configured extension, producing exactly two UrlFormat events. -/
theorem formatted_urls_event_per_failure_witness :
    ∃ urls : List Url,
      formattedUrls jsOnly
          "http://localhost" { ok := true, sent := [] } "http://schmocalhost" =
        .ok (urls,
          { (StatsChannel.mk true []) with sent :=
              ([] ++ (((none :: jsOnly.extensions.map some).filter
                (fun e =>
                  !(format jsOnly "http://localhost" "http://schmocalhost"
                    e).isOk)).map
                (fun _ => StatsCommand.addErrorUrlFormat))) }) :=
  formatted_urls_event_per_failure jsOnly "http://localhost" "http://schmocalhost"
    _ rfl

/-- C10: formatted_urls returns Ok with the collected list whenever every
event-channel send succeeds (a live channel guarantees an Ok result), and it
returns an error only when sending a UrlFormat event itself fails: an error
implies the channel was closed and some format call had failed; an individual
format failure alone never produces an error. -/
theorem formatted_urls_error_only_on_send_failure :
    (∀ (cfg : UrlConfig) (target word : String) (ch : StatsChannel),
      ch.ok = true →
      ∃ r : List Url × StatsChannel, formattedUrls cfg target ch word = .ok r) ∧
    (∀ (cfg : UrlConfig) (target word : String) (ch : StatsChannel)
      (msg : String),
      formattedUrls cfg target ch word = .error msg →
      ch.ok = false ∧
        ∃ e ∈ none :: cfg.extensions.map some,
          (format cfg target word e).isOk = false) := by
  constructor
  · intro cfg target word ch hok
    exact ⟨_, formattedUrls_ok_channel cfg target word ch hok⟩
  · intro cfg target word ch msg herr
    constructor
    · cases hc : ch.ok with
      | true =>
        rw [formattedUrls_ok_channel cfg target word ch hc] at herr
        exact absurd herr (by simp)
      | false => rfl
    · unfold formattedUrls at herr
      exact foldlM_formatStep_error_implies cfg target word
        (extensionForms cfg) [] ch msg herr

/-- Witness for C10: a live channel yields Ok even though every format call
fails, and a closed channel with a failing word yields an error whose
existence certifies both conclusions. -/
theorem formatted_urls_error_only_on_send_failure_witness :
    (∃ r : List Url × StatsChannel,
      formattedUrls .default "http://localhost" { ok := true, sent := [] }
        "http://schmocalhost" = .ok r) ∧
    ((StatsChannel.mk false []).ok = false ∧
      ∃ e ∈ none :: ([] : List String).map some,
        (format .default "http://localhost" "http://schmocalhost" e).isOk = false) :=
  ⟨formatted_urls_error_only_on_send_failure.1 _ "http://localhost"
      "http://schmocalhost" _ rfl,
   formatted_urls_error_only_on_send_failure.2 .default "http://localhost"
      "http://schmocalhost" { ok := false, sent := [] } "stats channel closed"
      (by decide)⟩

/-- C4 counterexample: for the word //upload/img (with everything else at
defaults, no extensions and no queries configured), format succeeds with
http://localhost/upload/img while the standard relative-URL join of the word
against the slash-normalized base succeeds with http://upload/img, so format
does not return the standard join result for every word. -/
theorem format_is_normalized_join_counterexample :
    format .default "http://localhost" "//upload/img" none =
      .ok { scheme := "http", host := some "localhost", port := none,
            path := ["upload", "img"], query := none } ∧
    joinAgainstNormalized "http://localhost" "//upload/img" =
      .ok { scheme := "http", host := some "upload", port := none,
            path := ["img"], query := none } ∧
    format .default "http://localhost" "//upload/img" none ≠
      joinAgainstNormalized "http://localhost" "//upload/img" :=
  ⟨by decide, by decide, by decide⟩

/-- C4 (amended): for every non-empty word w that does not itself parse as an
absolute URL and does not begin with two slashes, and every target, when no
extensions, no queries and no add-slash are configured, format (w, none)
equals the standard relative-URL join of w against the slash-normalized base
(so it succeeds exactly when that join succeeds and returns that joined URL);
the returned URL preserves the authority (scheme, host, port) of the parsed
target; and when w is empty the raw target is used as the base without
appending a slash (the result is the parse of the raw target). -/
theorem format_is_normalized_join :
    (∀ (cfg : UrlConfig) (target w : String),
      cfg.extensions = [] → cfg.queries = [] → cfg.add_slash = false →
      w ≠ "" → (parseUrl w).isOk = false → startsWithTwoSlashes w = false →
      format cfg target w none = joinAgainstNormalized target w) ∧
    (∀ (cfg : UrlConfig) (target : String),
      cfg.queries = [] → cfg.add_slash = false →
      format cfg target "" none = parseUrl target) ∧
    (∀ (cfg : UrlConfig) (target w : String) (u b : Url),
      cfg.queries = [] → cfg.add_slash = false →
      (parseUrl w).isOk = false → startsWithTwoSlashes w = false →
      format cfg target w none = .ok u → parseUrl target = .ok b →
      u.scheme = b.scheme ∧ u.host = b.host ∧ u.port = b.port) :=
  ⟨fun cfg target w _ hq hsl hw hpw hts =>
      format_join_eq cfg target w hq hsl hw hpw hts,
   fun cfg target hq hsl => format_empty_word cfg target hq hsl,
   fun cfg target w u b hq hsl hpw hts hfmt hpt =>
      format_authority cfg target w u b hq hsl hpw hts hfmt hpt⟩

/-- Witness for C4 (amended) at the word stuff against http://localhost. -/
theorem format_is_normalized_join_witness :
    format .default "http://localhost" "stuff" none =
      joinAgainstNormalized "http://localhost" "stuff" ∧
    format .default "http://localhost/a/b" "" none = parseUrl "http://localhost/a/b" :=
  ⟨format_is_normalized_join.1 .default "http://localhost" "stuff" rfl rfl rfl
      (by decide) (by decide) (by decide),
   format_is_normalized_join.2.1 .default "http://localhost/a/b" rfl rfl⟩

/-- C5: in the configuration merge, a command-line flag that was not
explicitly supplied never overwrites the value established by the file layer
or defaults (in particular a file-set boolean true is never reset by CLI
absence, since boolean overrides are guarded on flag presence), while an
explicitly supplied flag always overwrites (the required target flag always
does); concretely, file threads = 40 with no CLI flag yields threads = 40 and
CLI threads 10 yields threads = 10. -/
theorem cli_override_only_when_supplied :
    (∀ (fs : Option FileSettings) (a : Args) (cfg : Configuration),
      mergeConfig fs a = some cfg →
      ((a.threads = none → cfg.threads = (fileLayer fs).threads) ∧
       (∀ n, a.threads = some n → cfg.threads = n)) ∧
      ((a.wordlist = none → cfg.wordlist = (fileLayer fs).wordlist) ∧
       (∀ v, a.wordlist = some v → cfg.wordlist = v)) ∧
      ((a.output = none → cfg.output = (fileLayer fs).output) ∧
       (∀ v, a.output = some v → cfg.output = v)) ∧
      ((a.statuscodes = none → cfg.statuscodes = (fileLayer fs).statuscodes) ∧
       (∀ v, a.statuscodes = some v → cfg.statuscodes = v)) ∧
      ((a.extensions = none → cfg.extensions = (fileLayer fs).extensions) ∧
       (∀ v, a.extensions = some v → cfg.extensions = v)) ∧
      ((a.quiet = false → cfg.quiet = (fileLayer fs).quiet) ∧
       (a.quiet = true → cfg.quiet = true)) ∧
      ((a.verbosity = 0 → cfg.verbosity = (fileLayer fs).verbosity) ∧
       (0 < a.verbosity → cfg.verbosity = a.verbosity % 256)) ∧
      cfg.target_url = a.url ∧
      ((a.proxy = none → cfg.proxy = (fileLayer fs).proxy) ∧
       (∀ v, a.proxy = some v → cfg.proxy = v)) ∧
      ((a.useragent = none → cfg.useragent = (fileLayer fs).useragent) ∧
       (∀ v, a.useragent = some v → cfg.useragent = v)) ∧
      ((a.timeout = none → cfg.timeout = (fileLayer fs).timeout) ∧
       (∀ v, a.timeout = some v → cfg.timeout = v)) ∧
      ((a.follow_redirects = false →
          cfg.follow_redirects = (fileLayer fs).follow_redirects) ∧
       (a.follow_redirects = true → cfg.follow_redirects = true)) ∧
      ((a.norecursion = false → cfg.norecursion = (fileLayer fs).norecursion) ∧
       (a.norecursion = true → cfg.norecursion = true)) ∧
      ((a.insecure = false → cfg.insecure = (fileLayer fs).insecure) ∧
       (a.insecure = true → cfg.insecure = true)) ∧
      (a.headers = none → cfg.headers = (fileLayer fs).headers)) ∧
    (∃ cfg, mergeConfig (some fs40) (Args.onlyUrl "http://localhost") =
        some cfg ∧ cfg.threads = 40) ∧
    (∃ cfg, mergeConfig (some fs40)
        { (Args.onlyUrl "http://localhost") with threads := some 10 } =
          some cfg ∧ cfg.threads = 10) := by
  refine ⟨?_, ⟨_, rfl, by rfl⟩, ⟨_, rfl, by rfl⟩⟩
  intro fs a cfg hm
  obtain ⟨hs, hh, rfl⟩ := mergeConfig_some fs a cfg hm
  refine ⟨⟨fun hth => ?_, fun n hth => ?_⟩, ⟨fun hwl => ?_, fun v hwl => ?_⟩,
    ⟨fun hou => ?_, fun v hou => ?_⟩, ⟨fun hsc => ?_, fun v hsc => ?_⟩,
    ⟨fun hex => ?_, fun v hex => ?_⟩, ⟨fun hqu => ?_, fun hqu => ?_⟩,
    ⟨fun hvb => ?_, fun hvb => ?_⟩, (by simp [applyGate_eq, preHeaders]),
    ⟨fun hpx => ?_, fun v hpx => ?_⟩,
    ⟨fun hua => ?_, fun v hua => ?_⟩, ⟨fun hti => ?_, fun v hti => ?_⟩,
    ⟨fun hfr => ?_, fun hfr => ?_⟩, ⟨fun hnr => ?_, fun hnr => ?_⟩,
    ⟨fun hin => ?_, fun hin => ?_⟩, fun hhd => ?_⟩
  all_goals try simp [applyGate_eq, preHeaders, fileLayer, *]
  rw [hhd] at hh
  have hh2 : some (preHeaders fs a).headers = some hs := hh
  injection hh2 with hx
  rw [← hx]
  simpa [fileLayer] using preHeaders_headers fs a

/-- Witness for C5: the concrete merge of a file with threads 40 and a bare
command line, instantiating the no-flag clause for threads. -/
theorem cli_override_only_when_supplied_witness :
    (Args.onlyUrl "http://localhost").threads = none ∧
    merged40.threads = (fileLayer (some fs40)).threads :=
  ⟨rfl,
   ((cli_override_only_when_supplied.1 (some fs40)
      (Args.onlyUrl "http://localhost") merged40 (by rfl)).1).1 rfl⟩

/-- C6: after all overrides, the HTTP client differs from the built-in
default client exactly when at least one client-affecting field differs from
its built-in default (proxy non-empty, timeout not 7, useragent not the
default, follow_redirects, insecure, or non-empty headers); when some field
differs the client is rebuilt from the merged fields, with a non-empty proxy
routed through the proxy constructor branch and an empty proxy through the
no-proxy branch; otherwise the client is the default client, untouched. -/
theorem client_rebuild_gating :
    ∀ (fs : Option FileSettings) (a : Args) (cfg : Configuration),
      mergeConfig fs a = some cfg →
      (cfg.client ≠ defaultConfiguration.client ↔
        (cfg.proxy ≠ "" ∨ cfg.timeout ≠ defaultTimeout ∨
          cfg.useragent ≠ defaultUseragent ∨ cfg.follow_redirects = true ∨
          cfg.insecure = true ∨ cfg.headers ≠ [])) ∧
      ((cfg.proxy ≠ "" ∨ cfg.timeout ≠ defaultTimeout ∨
          cfg.useragent ≠ defaultUseragent ∨ cfg.follow_redirects = true ∨
          cfg.insecure = true ∨ cfg.headers ≠ []) →
        cfg.client = clientInitialize cfg.timeout cfg.useragent
          cfg.follow_redirects cfg.insecure cfg.headers
          (if cfg.proxy = "" then none else some cfg.proxy)) ∧
      (¬(cfg.proxy ≠ "" ∨ cfg.timeout ≠ defaultTimeout ∨
          cfg.useragent ≠ defaultUseragent ∨ cfg.follow_redirects = true ∨
          cfg.insecure = true ∨ cfg.headers ≠ []) →
        cfg.client = defaultConfiguration.client) := by
  intro fs a cfg hm
  obtain ⟨hs, hh, rfl⟩ := mergeConfig_some fs a cfg hm
  have hX : ({ preHeaders fs a with headers := hs } : Configuration).client =
      defaultConfiguration.client := by
    have h1 : ({ preHeaders fs a with headers := hs } : Configuration).client =
        (applyFile defaultConfiguration fs).client := by
      simp [preHeaders]
    rw [h1, applyFile_client]
  have e1 : (applyGate { preHeaders fs a with headers := hs }).proxy =
      ({ preHeaders fs a with headers := hs } : Configuration).proxy := by
    simp [applyGate_eq]
  have e2 : (applyGate { preHeaders fs a with headers := hs }).timeout =
      ({ preHeaders fs a with headers := hs } : Configuration).timeout := by
    simp [applyGate_eq]
  have e3 : (applyGate { preHeaders fs a with headers := hs }).useragent =
      ({ preHeaders fs a with headers := hs } : Configuration).useragent := by
    simp [applyGate_eq]
  have e4 : (applyGate { preHeaders fs a with headers := hs }).follow_redirects =
      ({ preHeaders fs a with headers := hs } : Configuration).follow_redirects := by
    simp [applyGate_eq]
  have e5 : (applyGate { preHeaders fs a with headers := hs }).insecure =
      ({ preHeaders fs a with headers := hs } : Configuration).insecure := by
    simp [applyGate_eq]
  have e6 : (applyGate { preHeaders fs a with headers := hs }).headers =
      ({ preHeaders fs a with headers := hs } : Configuration).headers := by
    simp [applyGate_eq]
  rw [e1, e2, e3, e4, e5, e6]
  exact applyGate_spec _ hX

/-- Witness for C6: merging a command line that supplies a proxy rebuilds the
client through the proxy branch. -/
theorem client_rebuild_gating_witness :
    mergedProxy.client = clientInitialize mergedProxy.timeout
      mergedProxy.useragent mergedProxy.follow_redirects mergedProxy.insecure
      mergedProxy.headers
      (if mergedProxy.proxy = "" then none else some mergedProxy.proxy) :=
  (client_rebuild_gating none argsProxy mergedProxy (by rfl)).2.1
    (Or.inl (fun h =>
      absurd ((rfl : mergedProxy.proxy = "http://p:8080") ▸ h)
        (by decide)))

/-- C9 evidence: header specs are split on colons with both sides trimmed
and inserted, but the policy is not total: a spec without a colon makes the
second split_val.next().unwrap() panic (modelled as none, which aborts the
whole merge), and a spec with two colons keeps only the part between the
first and second colon as the value rather than everything after the first
colon. -/
theorem header_split_not_total :
    headerSplit " Stuff : things " = some ("Stuff", "things") ∧
    headerSplit "Authorization" = none ∧
    mergeConfig none argsNoColon = none ∧
    headerSplit "a: b:c" = some ("a", "b") :=
  ⟨by decide, by decide, by rfl, by decide⟩

end FeroxClaims
